import Mathlib

/-!
# Verification of the xsh orchestration core

Shallow embedding of the Go sources of `danvixent/xsh`:

* `run.go` — `Plan`, `Host`, `Plan.OpenConns`, `Plan.Execute`,
  `Plan.executeWG`, `Plan.executeErrG`, `Plan.getSigners`;
* the result aggregator file — `Result`, `res`, `Result.AddResult`,
  `Result.MarshalJSON`;
* `main.go` — the CLI entrypoint.

The external SSH transport (`golang.org/x/crypto/ssh`) is out of scope of
the program itself; its calls are modelled by an oracle that says, per host
token, whether each transport step would succeed.  Machine-level effects
(a nil-pointer dereference, `log.Fatalf`, stack exhaustion) are modelled as
explicit outcome constructors.
-/

namespace Xsh

/-- Per-token transport oracle: whether each external call made inside
`Plan.OpenConns` for that host token would succeed.  `signersOk` stands for
the outcome of the `p.getSigners` sub-call (its internals are embedded
separately as `getSigners` below). -/
structure HostOracle where
  signersOk : Bool
  dialOk : Bool
  newSessionOk : Bool
  ptyOk : Bool
  shellOk : Bool
deriving DecidableEq

/-- Go `Host` struct from run.go: `user`, `host`, and the `session` pointer,
which is nil (`none`) until assigned.  Sessions are abstract handles
numbered by creation order. -/
structure Host where
  user : String
  host : String
  session : Option Nat := none
deriving DecidableEq

/-- Go `Plan` struct (the fields the embedded operations read).
`ParallelLimit` is `*int`, hence `Option Nat`. -/
structure Plan where
  PlainHosts : List String
  Command : String
  SSHKeyPath : String
  ParallelLimit : Option Nat
deriving DecidableEq

/-- One error return site of `Plan.OpenConns`, carrying exactly the host
identifier that the corresponding `fmt.Errorf` format string interpolates
(`getSignersFailed` carries none: `"failed to get signers: %v"` names no
host; `dialFailed`/`newSessionFailed` interpolate the full token;
`requestPtyFailed`/`shellFailed` interpolate `h.host`, the address part). -/
inductive OpenError where
  | noHosts
  | invalidHost (tok : String)
  | getSignersFailed
  | dialFailed (tok : String)
  | newSessionFailed (tok : String)
  | requestPtyFailed (addr : String)
  | shellFailed (addr : String)
deriving DecidableEq

/-- How a call to `Plan.OpenConns` ends: an error return, a nil-pointer
fault (a Go runtime panic from calling a method on a nil `*ssh.Session`),
or a nil-error return. -/
inductive OpenOutcome where
  | err (e : OpenError)
  | panicNilSession
  | ok
deriving DecidableEq

/-- Observable events of one `Plan.OpenConns` call, in order.  `dial` is
recorded when `ssh.Dial` is attempted (network activity); `newSession`
when `NewSession` succeeds, with the fresh session id; `requestPty` records
which session value (`h.session`) the `RequestPty` call is made on. -/
inductive Event where
  | getSignersCall (tok : String)
  | dial (tok : String)
  | newSession (tok : String) (sid : Nat)
  | requestPty (sess : Option Nat) (addr : String)
  | spawnListener
deriving DecidableEq

/-- State threaded through `Plan.OpenConns`: the `p.hosts` slice, the set of
sessions opened by `NewSession` and not yet closed, a fresh-session counter,
and the event trace. -/
structure OpenState where
  hosts : List Host
  openSessions : List Nat
  nextSession : Nat
  trace : List Event
deriving DecidableEq

def initState : OpenState := { hosts := [], openSessions := [], nextSession := 0, trace := [] }

/-- Character-list core of Go `strings.Split(s, sep)` for a one-character
separator: split at every occurrence, keeping empty parts. -/
def splitOnChar (sep : Char) : List Char → List (List Char)
  | [] => [[]]
  | c :: rest =>
    let r := splitOnChar sep rest
    if c = sep then [] :: r
    else
      match r with
      | [] => [[c]]
      | p :: ps => (c :: p) :: ps

/-- Go `strings.Split(s, "@")` (used with `sep := '@'`): `"a@b@c"` gives
`["a", "b", "c"]`, `"a@"` gives `["a", ""]`, `"hostonly"` gives
`["hostonly"]`. -/
def goSplit (s : String) (sep : Char) : List String :=
  (splitOnChar sep s.data).map (fun l => ⟨l⟩)

/-- The body of the `for _, host := range p.PlainHosts` loop of
`Plan.OpenConns` (run.go lines 79–130), one token at a time:

* `strings.Split(host, "@")`; length ≠ 2 → `"invalid host: …"` error;
* `p.getSigners(…)`; failure → `"failed to get signers: …"`;
* build `h := Host{user: parts[0], host: parts[1]}` (its `session` field is
  the zero value, nil);
* `ssh.Dial`; failure → `"failed to dial SSH for host …"`;
* `sshConn.NewSession()`; failure → `"failed to start ssh session …"`;
  success yields a live session handle;
* `h.session.RequestPty(…)` — on the *field* `h.session`, which is still
  nil at this point (it is assigned only at line 128, below the call), so
  the call faults;
* (dead code, kept faithfully:) on a non-nil session the pty and shell
  results would be checked, then `h.session = session` and
  `p.hosts = append(p.hosts)` — an `append` with no elements, which leaves
  `p.hosts` unchanged. -/
def openConnsLoop (oracle : String → HostOracle) : List String → OpenState → OpenState × OpenOutcome
  | [], st => (st, .ok)
  | tok :: rest, st =>
    let parts := goSplit tok '@'
    if parts.length ≠ 2 then (st, .err (.invalidHost tok))
    else
      let st1 := { st with trace := st.trace ++ [.getSignersCall tok] }
      if ¬(oracle tok).signersOk then (st1, .err .getSignersFailed)
      else
        let h : Host := { user := parts.getD 0 "", host := parts.getD 1 "" }
        let st2 := { st1 with trace := st1.trace ++ [.dial tok] }
        if ¬(oracle tok).dialOk then (st2, .err (.dialFailed tok))
        else if ¬(oracle tok).newSessionOk then (st2, .err (.newSessionFailed tok))
        else
          let sid := st2.nextSession
          let st3 := { st2 with
            openSessions := st2.openSessions ++ [sid]
            nextSession := sid + 1
            trace := st2.trace ++ [.newSession tok sid, .requestPty h.session h.host] }
          match h.session with
          | none => (st3, .panicNilSession)
          | some _ =>
            if ¬(oracle tok).ptyOk then (st3, .err (.requestPtyFailed h.host))
            else if ¬(oracle tok).shellOk then (st3, .err (.shellFailed h.host))
            else
              let st4 := { st3 with hosts := st3.hosts ++ [] }
              openConnsLoop oracle rest st4

/-- `Plan.OpenConns` (run.go lines 74–135): the `len(p.PlainHosts) == 0`
fast-fail, then the per-host loop; on a nil-error return the
`listenForClose` goroutine is spawned. -/
def Plan.OpenConns (p : Plan) (oracle : String → HostOracle) : OpenState × OpenOutcome :=
  if p.PlainHosts.isEmpty then (initState, .err .noHosts)
  else
    match openConnsLoop oracle p.PlainHosts initState with
    | (st, .ok) => ({ st with trace := st.trace ++ [.spawnListener] }, .ok)
    | (st, o) => (st, o)

def allOkOracle : String → HostOracle :=
  fun _ => { signersOk := true, dialOk := true, newSessionOk := true, ptyOk := true, shellOk := true }

/-! ## Result aggregator (`Result`, `res`, `Result.AddResult`) -/

/-- Go `res` struct.  Timestamps and the recorded duration are modelled as
integers (`time.Time` / `time.Duration` values); the source renders them as
RFC3339 / `"%fs"` strings, an injective presentation that the claims do not
depend on.  `Error` is the Go zero value `""` when no error was recorded
(the `omitempty` tag drops exactly the `""` case from the JSON). -/
structure res where
  Error : String
  Host : String
  StartTime : Int
  EndTime : Int
  TimeTaken : Int
  Output : String
deriving DecidableEq

/-- Go `Result` struct: the two append-only sequences.  The `sync.Mutex`
serialises `AddResult` calls; concurrency is modelled by quantifying over
the arrival order of the serialised calls. -/
structure Result where
  Successes : List res
  Failures : List res
deriving DecidableEq

def Result.empty : Result := { Successes := [], Failures := [] }

/-- `Result.AddResult(start, end, host, output, err)`: builds one `res`
with `TimeTaken := start.Sub(end)` — the source subtracts in this order —
and appends it to `Failures` when `err != nil` (recording `err.Error()`),
else to `Successes`. -/
def Result.AddResult (r : Result) (start endT : Int) (host : String)
    (output : String) (err : Option String) : Result :=
  let rec0 : res := { Error := "", Host := host, StartTime := start, EndTime := endT,
                      TimeTaken := start - endT, Output := output }
  match err with
  | some e => { r with Failures := r.Failures ++ [{ rec0 with Error := e }] }
  | none => { r with Successes := r.Successes ++ [rec0] }

/-! ## Execution engine (`Plan.Execute`, `executeWG`, `executeErrG`) -/

/-- What one `session.Output(p.Command)` call yields for a host: the start
and end timestamps taken around it and the captured output / error. -/
structure RunOutcome where
  start : Int
  endT : Int
  output : String
  error : Option String
deriving DecidableEq

/-- The body of one per-host goroutine (run.go lines 155–161 / 176–181):
run the command, then `result.AddResult(start, end, host, out, err)`. -/
def runTask (run : Host → RunOutcome) (result : Result) (h : Host) : Result :=
  let t := run h
  result.AddResult t.start t.endT h.host t.output t.error

/-- `Plan.executeWG` (run.go lines 150–166): spawns one goroutine per host
and calls `wg.Wait()`, so by the time it returns every host's `AddResult`
has run, in some interleaving order; `arrival` is that order (a permutation
of `p.hosts`, constrained in the theorems via `wgPossible`).  Returns nil
error. -/
def executeWG (run : Host → RunOutcome) (arrival : List Host) (result : Result) :
    Result × Option String :=
  (arrival.foldl (runTask run) result, none)

/-- `Plan.executeErrG` (run.go lines 169–186): spawns the tasks through an
`errgroup` with `SetLimit(*p.ParallelLimit)` but returns without calling
`errg.Wait()`, so at the moment of return only some of the spawned tasks
have submitted their outcome; `submitted` is the list of hosts whose task
had completed by then (constrained in the theorems via `errGPossible`).
Returns nil error. -/
def executeErrG (run : Host → RunOutcome) (submitted : List Host) (result : Result) :
    Result × Option String :=
  (submitted.foldl (runTask run) result, none)

/-- Scheduling constraint for `executeWG`: `wg.Wait()` forces the arrival
order to be a permutation of the whole host list. -/
def wgPossible (hosts arrival : List Host) : Prop := arrival.Perm hosts

/-- Scheduling constraint for `executeErrG`: the tasks that completed
before the (premature) return form a sub-multiset of the host list, and —
because `errg.Go` blocks while `limit` tasks are in flight — at least
`hosts.length - limit` of them must already have completed. -/
def errGPossible (hosts submitted : List Host) (limit : Nat) : Prop :=
  submitted.Subperm hosts ∧ hosts.length - limit ≤ submitted.length

/-- `Plan.Execute` (run.go lines 137–147): picks `executeErrG` when
`p.ParallelLimit != nil`, else `executeWG`, starting from a fresh
`&Result{}`.  `sched` is the schedule-dependent arrival list of the chosen
strategy. -/
def Plan.Execute (p : Plan) (run : Host → RunOutcome) (sched : List Host) :
    Result × Option String :=
  match p.ParallelLimit with
  | some _ => executeErrG run sched Result.empty
  | none => executeWG run sched Result.empty

/-! ## Credential resolver (`Plan.getSigners`) -/

/-- Whether a file's bytes parse as a private key (`ssh.ParsePrivateKey`). -/
inductive FileContent where
  | validKey
  | invalidKey
deriving DecidableEq

/-- One entry visited by `filepath.Walk` over the default credential
directory: a regular file with its content, or a directory (whose
`os.ReadFile` fails). -/
inductive DirEntry where
  | file (name : String) (content : FileContent)
  | dir (name : String)
deriving DecidableEq

def DirEntry.name : DirEntry → String
  | .file n _ => n
  | .dir n => n

/-- run.go lines 56–60: the `ignoreFiles` set. -/
def ignoreFiles : List String := ["config", "known_hosts.old", "known_hosts"]

/-- run.go line 62: `publicKeyRegex = regexp.MustCompile(`\.pub$`)` — the
name matches iff it ends with the literal `.pub`. -/
def isPublicKeyName (n : String) : Bool := List.isSuffixOf ".pub".data n.data

/-- The skip test of the walk callback (run.go lines 219–223): name in
`ignoreFiles`, or matching `publicKeyRegex`. -/
def skipEntry (n : String) : Bool := ignoreFiles.contains n || isPublicKeyName n

/-- How the `filepath.Walk` traversal ends. -/
inductive ScanStep where
  | cont (signers : Nat)
  | fail
  | fatal
deriving DecidableEq

/-- The walk callback of `Plan.getSigners` (run.go lines 218–237) applied
along the visit sequence of `filepath.Walk` (depth-first preorder: the root
directory entry first, then each entry, directories immediately followed by
their children).  For each visited entry:

* name in `ignoreFiles` or matching `*.pub` → callback returns nil and the
  walk continues (for a directory, `filepath.Walk` still descends into it,
  since the callback returned nil and not `SkipDir`);
* otherwise `os.ReadFile(path)`: on a directory this fails, the callback
  returns the wrapped error and the entire walk aborts (`.fail`);
* otherwise `ssh.ParsePrivateKey`: failure hits `log.Fatalf` — the process
  exits (`.fatal`); success appends one signer. -/
def walkVisit : List DirEntry → Nat → ScanStep
  | [], acc => .cont acc
  | e :: rest, acc =>
    if skipEntry e.name then walkVisit rest acc
    else
      match e with
      | .dir _ => .fail
      | .file _ .validKey => walkVisit rest (acc + 1)
      | .file _ .invalidKey => .fatal

/-- Result of `Plan.getSigners`. -/
inductive ScanResult where
  | signers (n : Nat)
  | errRead
  | errNoKeys
  | fatalParse
deriving DecidableEq

/-- The explicit-path branch reads the named key file. -/
inductive KeyFileRead where
  | missing
  | content (c : FileContent)
deriving DecidableEq

/-- `Plan.getSigners` (run.go lines 202–247).  `util.IsStringEmpty` is not
under src; modelled from the spec (§4.1): an explicit path is given iff the
string is non-empty.  With an explicit path: read the file (`.errRead` on
failure), parse it (`log.Fatalf` → `.fatalParse` on failure), one signer on
success.  Without one: walk the default directory (`visits` is the
`filepath.Walk` visit sequence, root entry first), then return
`ErrNoSSHKeysFound` (`.errNoKeys`) iff zero signers were collected. -/
def getSigners (keyFile : String) (keyFileRead : KeyFileRead) (visits : List DirEntry) :
    ScanResult :=
  if keyFile = "" then
    match walkVisit visits 0 with
    | .fail => .errRead
    | .fatal => .fatalParse
    | .cont 0 => .errNoKeys
    | .cont (n + 1) => .signers (n + 1)
  else
    match keyFileRead with
    | .missing => .errRead
    | .content .validKey => .signers 1
    | .content .invalidKey => .fatalParse

/-! ## Serialization (`Result.MarshalJSON`) -/

/-- `json.Marshal` applied to a `*Result`.  `encoding/json` detects that
`*Result` implements `json.Marshaler` and dispatches to
`Result.MarshalJSON`, whose body (aggregator file lines 47–49) is
`return json.Marshal(r)` — the very call that invoked it, so each level of
the call stack re-enters with the same receiver.  `fuel` bounds the stack;
exhausting it is the stack overflow, and no string is ever produced. -/
def jsonMarshalResult : Nat → Result → Option String
  | 0, _ => none
  | fuel + 1, r => jsonMarshalResult fuel r

/-! ## CLI entrypoint (`main`) -/

/-- Externally visible steps `main` (or code reachable from it) could
perform. -/
inductive Effect where
  | registerFlag (flag : String)
  | createPlan
  | openConns
  | executeCmd
  | writeResult
deriving DecidableEq

def Effect.isRegisterFlag : Effect → Bool
  | .registerFlag _ => true
  | _ => false

/-- The effects the `RunE` closure registered in main.go (lines 24–54)
performs when the command is invoked: `NewPlan`, `p.OpenConns()`,
`p.Execute(ctx)`, `p.WriteResult(result)`. -/
def runEEffects : List Effect := [.createPlan, .openConns, .executeCmd, .writeResult]

/-- The cobra command object `main` builds. -/
structure Command where
  use : String
  runE : List Effect
deriving DecidableEq

def mainCmd : Command := { use := "xsh", runE := runEEffects }

/-- What `cmd.Execute()` would do if called: invoke the registered `RunE`. -/
def cobraExecute (c : Command) : List Effect := c.runE

/-- The effect trace of `main` (main.go lines 12–63): it constructs
`mainCmd`, registers the six persistent flags, and returns.  No call to
`cmd.Execute()` appears, so `runEEffects` is never run. -/
def mainTrace : List Effect :=
  [.registerFlag "hosts", .registerFlag "command", .registerFlag "key",
   .registerFlag "output", .registerFlag "parallel-limit", .registerFlag "timeout"]

/-- Whether an `OpenConns` outcome is the nil-error return. -/
def OpenOutcome.isOk : OpenOutcome → Bool
  | .ok => true
  | _ => false

/-! ## Helper lemmas -/

/-- Processing any host token either returns an error or faults on the nil
session; the loop never gets past its first remaining token, so it never
reaches the nil-error return and never changes `p.hosts`. -/
theorem openConnsLoop_cons (oracle : String → HostOracle) (tok : String)
    (rest : List String) (st : OpenState) :
    ((openConnsLoop oracle (tok :: rest) st).2).isOk = false ∧
    (openConnsLoop oracle (tok :: rest) st).1.hosts = st.hosts := by
  simp only [openConnsLoop]
  split
  · exact ⟨rfl, rfl⟩
  · split
    · exact ⟨rfl, rfl⟩
    · split
      · exact ⟨rfl, rfl⟩
      · split
        · exact ⟨rfl, rfl⟩
        · exact ⟨rfl, rfl⟩

/-! ## Claim theorems -/

/-- C1: the claim says that whenever `OpenConns` returns without error, the
Plan's Host list contains exactly one Host with a live session per opened
connection.  On the code this scenario is unrealisable: for every input and
every transport behaviour, `OpenConns` never returns without error (any
host that survives dialing and session creation faults on the nil
`h.session` at the `RequestPty` call), and the `p.hosts` list is always
left empty — `p.hosts = append(p.hosts)` appends no element. -/
theorem openConns_never_succeeds_and_records_no_host (p : Plan) (oracle : String → HostOracle) :
    ((p.OpenConns oracle).2).isOk = false ∧ (p.OpenConns oracle).1.hosts = [] := by
  unfold Plan.OpenConns
  cases hp : p.PlainHosts with
  | nil => simp [hp, initState, OpenOutcome.isOk]
  | cons tok rest =>
    obtain ⟨hne, hh⟩ := openConnsLoop_cons oracle tok rest initState
    rcases hres : openConnsLoop oracle (tok :: rest) initState with ⟨st, o⟩
    rw [hres] at hne hh
    cases o with
    | ok => exact absurd hne (by simp [OpenOutcome.isOk])
    | err e => simpa [hp, hres] using ⟨hne, hh⟩
    | panicNilSession => simpa [hp, hres] using ⟨hne, hh⟩

/-- C2: for a host whose token parses and whose credential resolution, dial
and session creation all succeed, `OpenConns` makes the `RequestPty` call
through the field `h.session`, which is still `none` at that point (it is
assigned only at line 128, after the call), so the call is made on a nil
session handle and the run faults; the session that was just opened is left
behind unconfigured. -/
theorem openConns_requestPty_on_nil_session (p : Plan) (oracle : String → HostOracle)
    (tok : String) (rest : List String)
    (hp : p.PlainHosts = tok :: rest)
    (hlen : (goSplit tok '@').length = 2)
    (hs : (oracle tok).signersOk = true)
    (hd : (oracle tok).dialOk = true)
    (hn : (oracle tok).newSessionOk = true) :
    (p.OpenConns oracle).2 = OpenOutcome.panicNilSession ∧
    Event.requestPty none ((goSplit tok '@').getD 1 "") ∈ (p.OpenConns oracle).1.trace ∧
    (p.OpenConns oracle).1.openSessions = [0] := by
  unfold Plan.OpenConns
  simp only [hp, List.isEmpty_cons, openConnsLoop, hlen, hs, hd, hn]
  simp [initState]

/-- Witness for C2 at host token `"u@h"` with an all-success transport. -/
theorem openConns_requestPty_on_nil_session_witness :
    (Plan.OpenConns { PlainHosts := ["u@h"], Command := "ls", SSHKeyPath := "", ParallelLimit := none } allOkOracle).2
        = OpenOutcome.panicNilSession ∧
    Event.requestPty none "h" ∈
      (Plan.OpenConns { PlainHosts := ["u@h"], Command := "ls", SSHKeyPath := "", ParallelLimit := none } allOkOracle).1.trace ∧
    (Plan.OpenConns { PlainHosts := ["u@h"], Command := "ls", SSHKeyPath := "", ParallelLimit := none } allOkOracle).1.openSessions
        = [0] :=
  openConns_requestPty_on_nil_session _ allOkOracle "u@h" [] rfl (by decide) rfl rfl rfl

def c3Host : Host := { user := "u", host := "h", session := some 0 }

def c3Plan : Plan := { PlainHosts := ["u@h"], Command := "ls", SSHKeyPath := "", ParallelLimit := some 1 }

def c3Run : Host → RunOutcome := fun _ => { start := 0, endT := 1, output := "ok", error := none }

/-- C3: the claim says `Execute` returns only after every per-host task
(all admitted tasks, in bounded mode) has submitted its Outcome.  In
bounded mode `executeErrG` spawns its tasks through the errgroup but
returns without calling `errg.Wait()`, so the schedule in which the single
admitted task of a one-host plan has not yet run when `Execute` returns is
possible (`errGPossible` holds for the empty completion list), and
`Execute` then returns a `Result` containing no Outcome at all, with a nil
error. -/
theorem executeErrG_returns_before_completion :
    errGPossible [c3Host] [] 1 ∧
    (c3Plan.Execute c3Run []).1.Successes.length + (c3Plan.Execute c3Run []).1.Failures.length = 0 ∧
    (c3Plan.Execute c3Run []).2 = none := by
  refine ⟨⟨List.nil_subperm, by simp⟩, by decide, rfl⟩

/-- C4: the claim (and the spec) require the recorded elapsed duration to
be `end - start`, hence non-negative.  `Result.AddResult` computes
`start.Sub(end)`: at start time 0 and end time 1 the recorded `TimeTaken`
is `-1`, which differs from `1 - 0` and is negative. -/
theorem addResult_time_taken_is_start_minus_end :
    ((Result.empty.AddResult 0 1 "a@1.2.3.4" "ok" none).Successes.map res.TimeTaken) = [-1] ∧
    (-1 : Int) ≠ 1 - 0 ∧ (-1 : Int) < 0 := by decide

def c5Plan : Plan := { PlainHosts := ["u@h"], Command := "ls", SSHKeyPath := "", ParallelLimit := none }

/-- C5: the claim says any per-host step failure makes `Open` return a
descriptive error and close every session opened earlier in the call,
leaving no dangling open sessions.  On the code, a host that reaches the
pty-request step faults on the nil `h.session` instead of returning an
error, and the session opened for it moments earlier (session 0) is left
open: the outcome is the nil-session fault, not an error return, and the
open-session list is nonempty.  (`OpenConns` contains no session-closing
code on any of its error paths.) -/
theorem openConns_step_failure_leaks_session :
    (c5Plan.OpenConns allOkOracle).2 = OpenOutcome.panicNilSession ∧
    (c5Plan.OpenConns allOkOracle).1.openSessions = [0] ∧
    ((c5Plan.OpenConns allOkOracle).1.openSessions).length = 1 := by decide

theorem addResult_successes_length (r : Result) (s e : Int) (ho o : String) (err : Option String) :
    (r.AddResult s e ho o err).Successes.length
      = r.Successes.length + (if err.isNone then 1 else 0) := by
  cases err <;> simp [Result.AddResult]

theorem addResult_failures_length (r : Result) (s e : Int) (ho o : String) (err : Option String) :
    (r.AddResult s e ho o err).Failures.length
      = r.Failures.length + (if err.isSome then 1 else 0) := by
  cases err <;> simp [Result.AddResult]

theorem foldl_runTask_successes (run : Host → RunOutcome) (calls : List Host) (r : Result) :
    (calls.foldl (runTask run) r).Successes.length
      = r.Successes.length + (calls.filter (fun h => ((run h).error).isNone)).length := by
  induction calls generalizing r with
  | nil => simp
  | cons h t ih =>
      rw [List.foldl_cons, ih]
      simp only [runTask, addResult_successes_length, List.filter_cons]
      by_cases hc : ((run h).error).isNone
      · simp [hc]; omega
      · simp [hc]

theorem foldl_runTask_failures (run : Host → RunOutcome) (calls : List Host) (r : Result) :
    (calls.foldl (runTask run) r).Failures.length
      = r.Failures.length + (calls.filter (fun h => ((run h).error).isSome)).length := by
  induction calls generalizing r with
  | nil => simp
  | cons h t ih =>
      rw [List.foldl_cons, ih]
      simp only [runTask, addResult_failures_length, List.filter_cons]
      by_cases hc : ((run h).error).isSome
      · simp [hc]; omega
      · simp [hc]

theorem filter_isNone_add_isSome (run : Host → RunOutcome) (l : List Host) :
    (l.filter (fun h => ((run h).error).isNone)).length
      + (l.filter (fun h => ((run h).error).isSome)).length = l.length := by
  induction l with
  | nil => simp
  | cons h t ih =>
      simp only [List.filter_cons, List.length_cons]
      cases hc : (run h).error <;> simp [hc] <;> omega

/-- C6: every Outcome submitted through `AddResult` lands in exactly one of
the two sequences — `Successes` when the per-host error is absent,
`Failures` when it is present — and after the unbounded `Execute` runs the
command against the `N` connected hosts (all of which reach execution and
submit, since `executeWG` waits on the `WaitGroup`), the two lengths sum to
`N`, whatever interleaving order the concurrent `AddResult` callers were
serialised in by the mutex: no Outcome is lost. -/
theorem execute_partitions_outcomes (p : Plan) (hosts arrival : List Host)
    (run : Host → RunOutcome)
    (hnolimit : p.ParallelLimit = none)
    (hsched : wgPossible hosts arrival) :
    (p.Execute run arrival).1.Successes.length
        = (hosts.filter (fun h => ((run h).error).isNone)).length ∧
    (p.Execute run arrival).1.Failures.length
        = (hosts.filter (fun h => ((run h).error).isSome)).length ∧
    (p.Execute run arrival).1.Successes.length + (p.Execute run arrival).1.Failures.length
        = hosts.length := by
  have hperm : arrival.Perm hosts := hsched
  have hS : (p.Execute run arrival).1.Successes.length
      = (arrival.filter (fun h => ((run h).error).isNone)).length := by
    simp [Plan.Execute, hnolimit, executeWG, foldl_runTask_successes, Result.empty]
  have hF : (p.Execute run arrival).1.Failures.length
      = (arrival.filter (fun h => ((run h).error).isSome)).length := by
    simp [Plan.Execute, hnolimit, executeWG, foldl_runTask_failures, Result.empty]
  have hSp := (hperm.filter (fun h => ((run h).error).isNone)).length_eq
  have hFp := (hperm.filter (fun h => ((run h).error).isSome)).length_eq
  refine ⟨hS.trans hSp, hF.trans hFp, ?_⟩
  rw [hS.trans hSp, hF.trans hFp]
  exact filter_isNone_add_isSome run hosts

def c6HostA : Host := { user := "u", host := "a", session := some 0 }

def c6HostB : Host := { user := "u", host := "b", session := some 1 }

def c6Plan : Plan := { PlainHosts := ["u@a", "u@b"], Command := "ls", SSHKeyPath := "", ParallelLimit := none }

def c6Run : Host → RunOutcome := fun h =>
  if h.host = "a" then { start := 0, endT := 1, output := "ok", error := none }
  else { start := 0, endT := 2, output := "", error := some "exit status 1" }

/-- Witness for C6: two connected hosts, arrival order reversed, one
success and one failure; the lengths sum to 2. -/
theorem execute_partitions_outcomes_witness :
    (c6Plan.Execute c6Run [c6HostB, c6HostA]).1.Successes.length
        = ([c6HostA, c6HostB].filter (fun h => ((c6Run h).error).isNone)).length ∧
    (c6Plan.Execute c6Run [c6HostB, c6HostA]).1.Failures.length
        = ([c6HostA, c6HostB].filter (fun h => ((c6Run h).error).isSome)).length ∧
    (c6Plan.Execute c6Run [c6HostB, c6HostA]).1.Successes.length
        + (c6Plan.Execute c6Run [c6HostB, c6HostA]).1.Failures.length
        = [c6HostA, c6HostB].length :=
  execute_partitions_outcomes c6Plan [c6HostA, c6HostB] [c6HostB, c6HostA] c6Run rfl
    (List.Perm.swap c6HostA c6HostB [])

def c7Oracle : String → HostOracle :=
  fun _ => { signersOk := true, dialOk := false, newSessionOk := true, ptyOk := true, shellOk := true }

def c7Plan : Plan := { PlainHosts := ["a@"], Command := "ls", SSHKeyPath := "", ParallelLimit := none }

/-- C7 counterexample: the token `"a@"` is malformed in the claim's sense —
its address part is empty (`strings.Split` yields `["a", ""]`) — yet
`OpenConns` does not reject it with the invalid-host error: the length-2
split passes the only format check, credential resolution runs, and the
dial is attempted (network activity), here failing with the dial error. -/
theorem openConns_accepts_empty_address_part :
    goSplit "a@" '@' = ["a", ""] ∧
    (c7Plan.OpenConns c7Oracle).2 = OpenOutcome.err (OpenError.dialFailed "a@") ∧
    Event.dial "a@" ∈ (c7Plan.OpenConns c7Oracle).1.trace := by decide

/-- C7 amended: `OpenConns` rejects a host token exactly when splitting it
on `"@"` does not yield exactly two parts (no `"@"`, or more than one);
the rejection happens with the invalid-host error before any network
activity and with zero sessions open.  A token with exactly one `"@"` but
an empty user or address part passes the format check and proceeds to
credential resolution and dialing. -/
theorem openConns_rejects_bad_separator_count (cmd key : String) (pl : Option Nat)
    (tok : String) (rest : List String) (oracle : String → HostOracle)
    (hm : (goSplit tok '@').length ≠ 2) :
    Plan.OpenConns { PlainHosts := tok :: rest, Command := cmd, SSHKeyPath := key, ParallelLimit := pl } oracle
      = (initState, OpenOutcome.err (OpenError.invalidHost tok)) := by
  unfold Plan.OpenConns
  simp only [List.isEmpty_cons, Bool.false_eq_true, if_false, openConnsLoop]
  rw [if_pos hm]

/-- Witness for the amended C7 at the tokens of the spec's example. -/
theorem openConns_rejects_bad_separator_count_witness :
    Plan.OpenConns { PlainHosts := ["hostonly"], Command := "ls", SSHKeyPath := "", ParallelLimit := none } allOkOracle
        = (initState, OpenOutcome.err (OpenError.invalidHost "hostonly")) ∧
    Plan.OpenConns { PlainHosts := ["a@b@c"], Command := "ls", SSHKeyPath := "", ParallelLimit := none } allOkOracle
        = (initState, OpenOutcome.err (OpenError.invalidHost "a@b@c")) :=
  ⟨openConns_rejects_bad_separator_count "ls" "" none "hostonly" [] allOkOracle (by decide),
   openConns_rejects_bad_separator_count "ls" "" none "a@b@c" [] allOkOracle (by decide)⟩

/-- C8: the claim describes a scan that skips the known non-key names,
parses every remaining entry and reports `NoCredentialsFound` exactly when
zero keys result.  On the code the default-directory scan can never get
that far: the first entry `filepath.Walk` hands to the callback is the root
directory itself (name `".ssh"`), which is neither in `ignoreFiles` nor a
`*.pub` match, so the callback calls `os.ReadFile` on the directory, that
read fails, and the whole walk aborts with the read error — whatever the
directory contains.  No entry is ever parsed and `ErrNoSSHKeysFound` is
unreachable on this path. -/
theorem getSigners_scan_dies_on_root_dir (rest : List DirEntry) :
    getSigners "" KeyFileRead.missing (DirEntry.dir ".ssh" :: rest) = ScanResult.errRead := rfl

/-- C9: the claim says serializing the one-success/one-failure ResultSet
terminates and round-trips.  `Result.MarshalJSON` is `json.Marshal(r)` on
its own receiver, which re-dispatches to `MarshalJSON`: however much call
stack is available, serializing this ResultSet produces no output (the Go
program dies of stack overflow). -/
theorem marshalResult_never_terminates :
    ∀ fuel : Nat,
      jsonMarshalResult fuel
        ((Result.empty.AddResult 0 1 "a@1.2.3.4" "ok" none).AddResult 2 3 "b@5.6.7.8" ""
          (some "exit status 1")) = none := by
  intro fuel
  induction fuel with
  | zero => rfl
  | succ n ih => simpa [jsonMarshalResult] using ih

/-- C10: `main` constructs the CLI command object and registers its six
persistent flags, and does nothing else — in particular `cmd.Execute()` is
never called, so the `RunE` effects (creating a Plan, opening connections,
executing the command, writing the result) never occur for any invocation;
invoking the command would have produced exactly those effects. -/
theorem main_builds_cli_without_invoking :
    mainTrace.filter (fun e => !e.isRegisterFlag) = [] ∧
    mainTrace.length = 6 ∧
    cobraExecute mainCmd
      = [Effect.createPlan, Effect.openConns, Effect.executeCmd, Effect.writeResult] := by decide

end Xsh
